import Mathlib

/-!
Verification of the shepherd monitoring engine (src/shepherd.py) against its
natural-language specification.

The Python source is shallowly embedded:
* JSON values (the transcript records) are the inductive type `JVal`;
  `json.loads` of a raw line is modelled by feeding already-parsed values,
  a malformed line being `none`.
* Python strings are Lean `String` (a structure over `List Char`), and the
  handful of `str` methods the source uses (`in`, `startswith`, `strip`,
  `split`, `replace`, `isspace`, slicing) are re-implemented below on
  `List Char` so that all definitions compute by kernel reduction.
  Python whitespace tests are modelled by `Char.isWhitespace`, which agrees
  with Python on the ASCII whitespace the transcripts contain.
* The mutable objects `ClaudeShepherd`, `ConversationMonitor` and the
  per-project slice of `MultiProjectMonitor` become the structures
  `ShepState`, `MonState` and `ProjState`; methods become functions from
  state to state.  Two history fields (`msgsEver`, `alertsEver`) are ghost
  variables recording every increment of the corresponding counters; they
  are never read by the embedded code.
* The external oracle (the `claude` subprocess) is a parameter: a completed
  call is an exit code together with its stripped stdout, and the reformat
  call of `_attempt_reformat` is an arbitrary function `String → String`
  (a failing reformat is the identity, matching the Python fallback).
* The analysis prompt TEXT is not modelled (the specification explicitly
  excludes prompt wording); `_build_analysis_prompt` is embedded by its
  only state effect, the ledger purge.
-/

namespace Shepherd

/-- JSON values as stored in the transcript files. -/
inductive JVal where
  | jnull : JVal
  | jbool : Bool → JVal
  | jnum : Int → JVal
  | jstr : String → JVal
  | jarr : List JVal → JVal
  | jobj : List (String × JVal) → JVal

/-- Python dict lookup `d.get(k)` for an object value: `none` when the key is
absent or the value is not an object. -/
def jget : JVal → String → Option JVal
  | JVal.jobj fs, k => fs.lookup k
  | _, _ => none

/-- Python truthiness of a JSON value: `None`, `False`, `0`, empty string,
empty list and empty dict are falsy. -/
def pyTruthy : JVal → Bool
  | JVal.jnull => false
  | JVal.jbool b => b
  | JVal.jnum n => n != 0
  | JVal.jstr s => !s.data.isEmpty
  | JVal.jarr xs => !xs.isEmpty
  | JVal.jobj fs => !fs.isEmpty

/-- Python truthiness of an optional value (`d.get(k)` used in a condition):
an absent key is falsy. -/
def pyTruthyOpt : Option JVal → Bool
  | none => false
  | some v => pyTruthy v

/-- Python `str()` of a JSON scalar, as used by an f-string interpolation.
The source only interpolates the `type` field, which the transcript format
makes a string; container values (whose Python repr is irrelevant to every
claim) are rendered as the empty string. -/
def pyStrOfJVal : JVal → String
  | JVal.jstr s => s
  | JVal.jnum n => toString n
  | JVal.jbool true => ("True")
  | JVal.jbool false => ("False")
  | JVal.jnull => ("None")
  | JVal.jarr _ => ("")
  | JVal.jobj _ => ("")

/-- Python `message.get(k, d)` interpolated into a string context. -/
def pyGetStr (m : JVal) (k d : String) : String :=
  match jget m k with
  | some v => pyStrOfJVal v
  | none => d

/- ---------- Python string primitives on List Char ---------- -/

/-- Python `p == s[:len(p)]`, the prefix test behind `str.startswith`. -/
def pyStartsWith (s p : String) : Bool := p.data.isPrefixOf s.data

/-- Scan for a substring occurrence, the test behind Python `pat in s`
(for a non-empty pattern). -/
def containsSeq (pat : List Char) : List Char → Bool
  | [] => pat.isPrefixOf []
  | c :: rest => pat.isPrefixOf (c :: rest) || containsSeq pat rest

/-- Python `pat in s` for the non-empty patterns the source tests. -/
def pyContains (s pat : String) : Bool := containsSeq pat.data s.data

/-- Python `str.isspace()`: true iff the string is non-empty and all of its
characters are whitespace. -/
def pyIsSpace (s : String) : Bool := !s.data.isEmpty && s.data.all Char.isWhitespace

/-- Strip whitespace from both ends of a character list (Python `str.strip`). -/
def stripChars (l : List Char) : List Char :=
  ((l.dropWhile Char.isWhitespace).reverse.dropWhile Char.isWhitespace).reverse

/-- Python `str.strip()`. -/
def pyStrip (s : String) : String := String.mk (stripChars s.data)

/-- Split a character list at newline characters (Python `s.split(chr(10))`):
no collapsing, and the empty list yields one empty piece. -/
def splitNL : List Char → List (List Char)
  | [] => [[]]
  | c :: rest =>
    if c = '\n' then [] :: splitNL rest
    else
      match splitNL rest with
      | [] => [[c]]
      | h :: t => (c :: h) :: t

/-- Python `s.split(chr(10))` on strings. -/
def pySplitLines (s : String) : List String := (splitNL s.data).map String.mk

/-- Fuel-indexed body of Python `str.replace`: replace every non-overlapping
occurrence of `pat`, scanning left to right.  The fuel is an upper bound on
the number of characters consumed; each step consumes at least one, so fuel
`s.length` computes the full replacement for a non-empty pattern. -/
def replaceAux (pat repl : List Char) : Nat → List Char → List Char
  | 0, s => s
  | _ + 1, [] => []
  | fuel + 1, c :: rest =>
    if pat.isPrefixOf (c :: rest) && !pat.isEmpty then
      repl ++ replaceAux pat repl fuel ((c :: rest).drop pat.length)
    else
      c :: replaceAux pat repl fuel rest

/-- Python `s.replace(pat, repl)` for a non-empty pattern. -/
def pyReplace (s pat repl : String) : String :=
  String.mk (replaceAux pat.data repl.data s.data.length s.data)

/-- Python slice `lst[-k:]`: for `k = 0` the slice is `lst[0:]`, the WHOLE
list — the quirk matters when `context_size` is configured as 0. -/
def pyTakeLast (xs : List String) (k : Nat) : List String :=
  if k = 0 then xs else xs.drop (xs.length - k)

/-- Concatenation with single-space separators, Python `chr(32).join(parts)`. -/
def joinSpace : List String → String
  | [] => ("")
  | [p] => p
  | p :: ps => p ++ (" ") ++ joinSpace ps

/- ---------- ClaudeShepherd state ---------- -/

/-- Mutable fields of `ClaudeShepherd` that the claims mention, plus two
ghost history counters.  `ledger` is `reported_violations`, a list of
(message_num, violation) pairs; `buf` is `conversation_context`. -/
structure ShepState where
  buf : List String
  contextSize : Nat
  msgCount : Nat
  alertCount : Nat
  ledger : List (Nat × String)
  msgsEver : Nat
  alertsEver : Nat
deriving DecidableEq

/-- Initial `ClaudeShepherd` state for a configured context size. -/
def initShep (cs : Nat) : ShepState :=
  { buf := [], contextSize := cs, msgCount := 0, alertCount := 0,
    ledger := [], msgsEver := 0, alertsEver := 0 }

/-- Format of a context-buffer entry, the f-string `{message_type}: {message_content}`. -/
def fmtEntry (content mtype : String) : String := mtype ++ (": ") ++ content

/-- Embeds `ClaudeShepherd.add_to_context` (src/shepherd.py lines 192-200):
increment `message_count`, append the formatted entry, truncate the front
when the buffer exceeds `context_size` via the Python slice `lst[-size:]`. -/
def add_to_context (st : ShepState) (content mtype : String) : ShepState :=
  let buf1 := st.buf ++ [fmtEntry content mtype]
  { st with
    msgCount := st.msgCount + 1
    msgsEver := st.msgsEver + 1
    buf := if st.contextSize < buf1.length then pyTakeLast buf1 st.contextSize else buf1 }

/-- Context window used by the prompt builders:
`min(self.context_size, len(self.conversation_context))`. -/
def contextWindow (st : ShepState) : Nat := min st.contextSize st.buf.length

/-- Earliest message number of the current window:
`max(1, self.message_count - context_window + 1)` (Python ints; in Nat the
truncated form agrees because of the outer `max 1`). -/
def contextStart (st : ShepState) : Nat :=
  max 1 (st.msgCount + 1 - contextWindow st)

/-- Embeds the only state effect of `ClaudeShepherd._build_analysis_prompt`
(src/shepherd.py lines 481-514): when the ledger is non-empty, drop every
record whose `message_num` falls before the current context window.  The
returned prompt text is not modelled (excluded by the specification). -/
def build_analysis_prompt (st : ShepState) : ShepState :=
  if st.ledger.isEmpty then st
  else { st with ledger := st.ledger.filter (fun v => contextStart st ≤ v.1) }

/-- Embeds `ConversationMonitor.should_show_heartbeat` (lines 756-760); the
interval is an `Int` because the `-b` flag admits non-positive values. -/
def should_show_heartbeat (interval : Int) (st : ShepState) : Bool :=
  if interval ≤ 0 then false
  else decide (0 < st.msgCount) && decide ((st.msgCount : Int) % interval = 0)

/-- Embeds `ClaudeShepherd.get_heartbeat_status` (lines 553-568): build the
status line and reset `alert_count` to zero.  Returns (new state, line). -/
def get_heartbeat_status (st : ShepState) (projectName : String) (interval : Int) : ShepState × String :=
  let pfx := if !projectName.data.isEmpty then projectName ++ (": ") else ("Shepherd: ")
  let status :=
    if st.alertCount = 0 then
      ("🐑 ") ++ pfx ++ toString interval ++ (" messages processed")
    else
      ("⚠️  ") ++ pfx ++ toString interval ++ (" messages processed, ")
        ++ toString st.alertCount ++ (" alerts raised")
  ({ st with alertCount := 0 }, status)

/- ---------- Message extraction and completeness ---------- -/

/-- Text of one content block in the assistant list shape: a dict block whose
`type` is the string `text` contributes its `text` field (default empty
string when absent; a non-string `text` field would make the Python join
raise and is modelled as empty). -/
def blockText : JVal → Option String
  | JVal.jobj fs =>
    match jget (JVal.jobj fs) ("type") with
    | some (JVal.jstr t) =>
      if t = ("text") then
        some (match jget (JVal.jobj fs) ("text") with
              | some (JVal.jstr s) => s
              | _ => (""))
      else none
    | _ => none
  | _ => none

/-- Loop of `extract_content` over the content blocks: Python builds
`text_parts` by appending for each matching block, in list order. -/
def collectTextParts (blocks : List JVal) : List String :=
  blocks.foldl
    (fun acc b => match blockText b with
      | some t => acc ++ [t]
      | none => acc)
    []

/-- Top-level fallback of `extract_content`: the expression
`message.get(k, d)` with key `content` and empty default on the outer
record.  Records on which Python would hand a non-string value onward
(a list or dict top-level `content`) are modelled as empty. -/
def topContent (m : JVal) : String :=
  match jget m ("content") with
  | some (JVal.jstr s) => s
  | _ => ("")

/-- Embeds `ConversationMonitor.extract_content` (src/shepherd.py lines
708-728): a truthy nested `message` object with a string `content` returns
that string; with a list `content` returns the space-joined texts of the
`text`-typed blocks; every other shape falls back to the TOP-LEVEL
`content` field.  A truthy non-dict nested message, on which Python would
raise, is modelled by the same fallback. -/
def extract_content (m : JVal) : String :=
  let nested := (jget m ("message")).getD (JVal.jobj [])
  if pyTruthy nested then
    match jget nested ("content") with
    | some (JVal.jstr s) => s
    | some (JVal.jarr blocks) => joinSpace (collectTextParts blocks)
    | _ => topContent m
  else topContent m

/-- Embeds `ConversationMonitor.is_complete_message` (lines 730-754). -/
def is_complete_message (m : JVal) : Bool :=
  let msgType := pyGetStr m ("type") ("")
  let content := extract_content m
  if msgType = ("user") && !content.data.isEmpty then true
  else if msgType = ("assistant") && !content.data.isEmpty then true
  else if pyTruthyOpt (jget m ("finish_reason")) || pyTruthyOpt (jget m ("stop_reason")) then true
  else if !content.data.isEmpty && 10 < (pyStrip content).data.length then true
  else false

/- ---------- Response validation, repair and completion handling ---------- -/

/-- Alert marker scanned for with the Python `in` operator. -/
def alertMarker : String := "ALERT:"

/-- Reason header required on some line of a well-formed alert. -/
def reasonMarker : String := "REASON:"

/-- Emoji-prefixed marker the scheduler looks for before printing an alert
block (src/shepherd.py line 891). -/
def emojiAlertMarker : String := "🚨 ALERT:"

/-- Embeds `ClaudeShepherd._is_properly_formatted` (lines 570-586): a
response with no alert marker is fine; otherwise the first line of the
stripped response must start with the alert header and SOME line must start
with the reason header. -/
def is_properly_formatted (response : String) : Bool :=
  if !pyContains response alertMarker then true
  else
    let lines := pySplitLines (pyStrip response)
    if !pyStartsWith (lines.headD ("")) alertMarker then false
    else lines.any (fun l => pyStartsWith l reasonMarker)

/-- Embeds the violation-label extraction of `_process_async_analysis`
(lines 469-470): `re.match` of `ALERT:` followed by optional whitespace and
at least one character against the first raw line; on success the stripped
group, otherwise the whole response with every occurrence of the marker and
one space removed. -/
def extractLabel (response : String) : String :=
  let l0 := (pySplitLines response).headD ("")
  if pyStartsWith l0 alertMarker && 6 < l0.data.length then
    pyStrip (String.mk (l0.data.drop 6))
  else
    pyReplace response ("ALERT: ") ("")

/-- Ledger/alert bookkeeping applied to a completed response that contains
the alert marker (lines 466-474). -/
def recordAlert (st : ShepState) (response : String) : ShepState :=
  { st with
    alertCount := st.alertCount + 1
    alertsEver := st.alertsEver + 1
    ledger := st.ledger ++ [(st.msgCount, extractLabel response)] }

/-- Embeds `ClaudeShepherd._process_async_analysis` (lines 443-479) given the
oracle outcome: exit code `rc` and stripped stdout.  `reformat` is the
oracle double behind `_attempt_reformat` (a failed repair returns its input
unchanged).  Returns (new state, response string handed to the scheduler,
number of reformat attempts made). -/
def process_async_analysis (st : ShepState) (reformat : String → String)
    (rc : Nat) (stdout : String) : ShepState × String × Nat :=
  if rc = 0 then
    let needsRepair := pyContains stdout alertMarker && !is_properly_formatted stdout
    let response := if needsRepair then reformat stdout else stdout
    let calls : Nat := if needsRepair then 1 else 0
    let st1 := if pyContains response alertMarker then recordAlert st response else st
    (st1, response, calls)
  else
    (st, ("Analysis failed"), 0)

/-- Console outcome of the completion poll in `monitor_all_projects`
(lines 885-900). -/
inductive Emission where
  | alertBlock : Emission
  | allClearEcho : Emission
  | silent : Emission
deriving DecidableEq

/-- Display decision for a completed result (line 891): the structured alert
block is printed only when the result contains the EMOJI-prefixed marker,
otherwise the result is echoed only in verbose mode. -/
def completionEmission (verbose : Bool) (result : String) : Emission :=
  if pyContains result emojiAlertMarker then Emission.alertBlock
  else if verbose then Emission.allClearEcho
  else Emission.silent

/- ---------- ConversationMonitor: log switching ---------- -/

/-- Fields of `ConversationMonitor` that `switch_to_log` touches, together
with the owned shepherd state.  Log files are identified by their path
string; the read position `lastProcessedLine` is an exclusive line offset. -/
structure MonState where
  logPath : Option String
  lastProcessedLine : Nat
  shep : ShepState
deriving DecidableEq

/-- Embeds `ConversationMonitor.switch_to_log` (src/shepherd.py lines
683-699): point at the new path and, when the new file exists (its lines
are given as `some lines`), re-anchor `last_processed_line` to the total
line count of the new file; a missing file leaves the offset unchanged.
Nothing else of the monitor or its shepherd is touched. -/
def switch_to_log (st : MonState) (newPath : String) (newFileLines : Option (List String)) : MonState :=
  { st with
    logPath := some newPath
    lastProcessedLine :=
      match newFileLines with
      | some lines => lines.length
      | none => st.lastProcessedLine }

/-- Lines returned by one poll of a tailed file: `lines[last_processed_line:]`
(lines 847). -/
def readNewLines (fileLines : List String) (lastProcessed : Nat) : List String :=
  fileLines.drop lastProcessed

/- ---------- Per-project scheduler state and tick ---------- -/

/-- Per-project slice of `MultiProjectMonitor`: the owned shepherd state, the
single-flight flag (`project_path in self.pending_analyses`), and the
configuration the loop body reads. -/
structure ProjState where
  shep : ShepState
  pending : Bool
  interval : Int
  name : String
  verbose : Bool
deriving DecidableEq

/-- Initial per-project scheduler state. -/
def initProj (cs : Nat) (interval : Int) (name : String) (verbose : Bool) : ProjState :=
  { shep := initShep cs, pending := false, interval := interval,
    name := name, verbose := verbose }

/-- Admission test of the loop body for one raw line (lines 855-860): the
line must parse (`some`), be a complete message, and have content that is
non-empty and not all whitespace; the admitted pair is (content, type with
default `unknown`). -/
def admittedOne : Option JVal → Option (String × String)
  | none => none
  | some m =>
    if is_complete_message m then
      if !(extract_content m).data.isEmpty && !pyIsSpace (extract_content m) then
        some (extract_content m, pyGetStr m ("type") ("unknown"))
      else none
    else none

/-- Messages of a batch that the loop admits, in order. -/
def admitted (batch : List (Option JVal)) : List (String × String) :=
  batch.filterMap admittedOne

/-- Heartbeat check performed right after a message is appended (lines
864-866): when due, print the status line, which resets the alert tally. -/
def heartbeatStep (interval : Int) (name : String) (sh : ShepState) : ShepState :=
  if should_show_heartbeat interval sh then (get_heartbeat_status sh name interval).1
  else sh

/-- Shepherd-state effect of processing one raw line apart from dispatch:
append the admitted message to the context, then the heartbeat check. -/
def lineShepEffect (interval : Int) (name : String) (sh : ShepState) (line : Option JVal) : ShepState :=
  match admittedOne line with
  | none => sh
  | some ct => heartbeatStep interval name (add_to_context sh ct.1 ct.2)

/-- Embeds the body of the per-line loop of `monitor_all_projects` (lines
852-881) for one line: parse, admit, append to context, heartbeat check,
and — only when this is the last line of the batch and no analysis is
pending — build the prompt (purging the ledger) and dispatch.  Returns the
new state and whether a dispatch was started. -/
def processLine (st : ProjState) (line : Option JVal) (isLast : Bool) : ProjState × Bool :=
  match line with
  | none => (st, false)
  | some m =>
    if is_complete_message m then
      if !(extract_content m).data.isEmpty && !pyIsSpace (extract_content m) then
        if isLast && !st.pending then
          ({ st with
              shep := build_analysis_prompt (heartbeatStep st.interval st.name
                (add_to_context st.shep (extract_content m) (pyGetStr m ("type") ("unknown"))))
              pending := true }, true)
        else
          ({ st with
              shep := heartbeatStep st.interval st.name
                (add_to_context st.shep (extract_content m) (pyGetStr m ("type") ("unknown"))) }, false)
      else (st, false)
    else (st, false)

/-- Processes a whole batch of newly read lines in order, flagging the last
line; returns the new state and whether a dispatch was started. -/
def processLines (st : ProjState) : List (Option JVal) → ProjState × Bool
  | [] => (st, false)
  | l :: ls =>
    match ls with
    | [] => processLine st l true
    | _ :: _ => processLines (processLine st l false).1 ls

/-- Embeds the completion poll (lines 885-900): when an analysis is pending
and its future is done this tick (`some (rc, stdout)`), reconcile the
result into the shepherd state, decide what to print, and free the
single-flight slot. -/
def handleCompletion (reformat : String → String) (st : ProjState)
    (completion : Option (Nat × String)) : ProjState × Emission :=
  if st.pending then
    match completion with
    | some rcOut =>
      let r := process_async_analysis st.shep reformat rcOut.1 rcOut.2
      ({ st with shep := r.1, pending := false }, completionEmission st.verbose r.2.1)
    | none => (st, Emission.silent)
  else (st, Emission.silent)

/-- Environment input of one scheduler tick for one project: the newly
appended raw lines (already through `json.loads`; `none` is a malformed
line) and, when the pending future completed, the oracle outcome. -/
structure TickInput where
  batch : List (Option JVal)
  completion : Option (Nat × String)

/-- One tick of `monitor_all_projects` for one project (lines 833-902,
rotation aside): process the new lines, then poll the pending analysis. -/
def tick (reformat : String → String) (st : ProjState) (inp : TickInput) :
    ProjState × Bool × Emission :=
  let r1 := processLines st inp.batch
  let r2 := handleCompletion reformat r1.1 inp.completion
  (r2.1, r1.2, r2.2)

/-- Runs the scheduling loop over a sequence of tick inputs. -/
def runTicks (reformat : String → String) (st : ProjState) (inputs : List TickInput) : ProjState :=
  inputs.foldl (fun s i => (tick reformat s i).1) st

/-- Embeds the shutdown summary of `monitor_all_projects` (lines 904-908):
the printed totals are the sums of the current `message_count` and
`alert_count` over all projects. -/
def finalSummary (monitors : List ProjState) : Nat × Nat :=
  (monitors.foldl (fun acc m => acc + m.shep.msgCount) 0,
   monitors.foldl (fun acc m => acc + m.shep.alertCount) 0)

/- ---------- Specification-side definitions (for refinement claims) ---------- -/

/-- Well-formedness as worded by the specification for claim C6: no alert
marker at all, or the first line begins with the alert header AND at least
one SUBSEQUENT line begins with the reason header.  To be compared with the
source-derived `is_properly_formatted`, whose reason scan ranges over all
lines. -/
def specWellFormed (response : String) : Bool :=
  if !pyContains response alertMarker then true
  else
    let lines := pySplitLines (pyStrip response)
    pyStartsWith (lines.headD ("")) alertMarker
      && (lines.drop 1).any (fun l => pyStartsWith l reasonMarker)

/-- Content shapes the specification calls unrecognized for claim C7: the
nested message content is neither a plain string nor a list of blocks. -/
def unrecognizedContent (nested : JVal) : Bool :=
  match jget nested ("content") with
  | some (JVal.jstr _) => false
  | some (JVal.jarr _) => false
  | _ => true

/- ---------- Derived folds and reachability ---------- -/

/-- Fold of `add_to_context` over a list of (content, type) pairs. -/
def foldAdd (sh : ShepState) (ms : List (String × String)) : ShepState :=
  ms.foldl (fun s ct => add_to_context s ct.1 ct.2) sh

/-- Context view of a shepherd state: the components `add_to_context` reads
and writes (buffer, message count, configured size).  Heartbeats and ledger
purges are invisible in this view. -/
def ctxView (sh : ShepState) : List String × Nat × Nat :=
  (sh.buf, sh.msgCount, sh.contextSize)

/-- States of one project the scheduling loop can produce from startup. -/
def ReachableProj (st : ProjState) : Prop :=
  ∃ (cs : Nat) (i : Int) (nm : String) (v : Bool)
    (f : String → String) (ins : List TickInput),
    st = runTicks f (initProj cs i nm v) ins

/-- Counter invariant tying the run counters to their ghost histories:
`message_count` is never reset so it equals the number of admissions ever
made, while `alert_count` is reset by heartbeats so it only bounds the
alerts ever raised. -/
def CounterInv (sh : ShepState) : Prop :=
  sh.msgCount = sh.msgsEver ∧ sh.alertCount ≤ sh.alertsEver

/- ---------- Concrete vectors for counterexamples and witnesses ---------- -/

/-- Complete user record with string content `hello there`. -/
def recUser1 : JVal :=
  JVal.jobj [(("type"), JVal.jstr ("user")),
             (("message"), JVal.jobj [(("content"), JVal.jstr ("hello there"))])]

/-- Second complete user record. -/
def recUser2 : JVal :=
  JVal.jobj [(("type"), JVal.jstr ("user")),
             (("message"), JVal.jobj [(("content"), JVal.jstr ("second message"))])]

/-- Contract-conforming alert response: plain `ALERT:` header (the prompt
explicitly forbids the emoji) and a `REASON:` line. -/
def respConforming : String := "ALERT: test-coverage\nREASON: no tests added"

/-- Record with no nested message but a non-empty top-level `content`. -/
def recTopOnly : JVal := JVal.jobj [(("content"), JVal.jstr ("hello"))]

/-- Record used by the C7 witness: nested message with string content. -/
def recNested : JVal :=
  JVal.jobj [(("message"), JVal.jobj [(("content"), JVal.jstr ("hi"))])]

/-- Shepherd state used by the C5 evaluation: three messages seen, no alert
recorded yet. -/
def shC5 : ShepState :=
  { buf := [("user: a"), ("assistant: b"), ("user: c")], contextSize := 10,
    msgCount := 3, alertCount := 0, ledger := [], msgsEver := 3, alertsEver := 0 }

/-- Project state used by the C5 evaluation: non-verbose, analysis pending. -/
def projC5 : ProjState :=
  { shep := shC5, pending := true, interval := 0, name := (""), verbose := false }

/-- Project state used by the C1 witness: an analysis is pending. -/
def projC1 : ProjState :=
  { shep := initShep 3, pending := true, interval := 0, name := (""), verbose := false }

/-- Shepherd state used by the C4 witness: a stale and a fresh ledger record. -/
def shC4 : ShepState :=
  { buf := [("user: a"), ("assistant: b")], contextSize := 2,
    msgCount := 5, alertCount := 2, ledger := [(1, ("r1")), (5, ("r2"))],
    msgsEver := 5, alertsEver := 2 }

/-- Tick trace reaching a state whose ledger violates the per-tick bound of
claim C4: dispatch, completion with an alert, then a batch whose last line
is malformed so that no purge runs while `message_count` grows. -/
def traceC4 : ProjState :=
  runTicks id (initProj 1 0 ("") false)
    [⟨[some recUser1], none⟩,
     ⟨[], some (0, respConforming)⟩,
     ⟨[some recUser2, none], none⟩]

/-- Tick trace for claim C9: an alert is raised between two heartbeats
(interval 1), so the final `alert_count` is 0 while one alert was raised. -/
def traceC9 : ProjState :=
  runTicks id (initProj 10 1 ("") false)
    [⟨[some recUser1], none⟩,
     ⟨[], some (0, respConforming)⟩,
     ⟨[some recUser2], none⟩]

/- ==================== Theorems ==================== -/

/- ---------- generic helper lemmas ---------- -/

theorem startsWith_disjoint (s : String) (h : pyStartsWith s alertMarker = true) :
    pyStartsWith s reasonMarker = false := by
  unfold pyStartsWith alertMarker reasonMarker at *
  rw [ List.isPrefixOf_iff_prefix] at h
  by_contra hc
  simp only [Bool.not_eq_false] at hc
  rw [ List.isPrefixOf_iff_prefix] at hc
  rcases List.prefix_or_prefix_of_prefix h hc with h1 | h1
  · exact absurd h1 (by decide)
  · exact absurd h1 (by decide)

theorem heartbeat_shape (sh : ShepState) (nm : String) (i : Int) :
    (get_heartbeat_status sh nm i).1 = { sh with alertCount := 0 } := rfl

theorem purge_counters (sh : ShepState) :
    (build_analysis_prompt sh).buf = sh.buf
    ∧ (build_analysis_prompt sh).msgCount = sh.msgCount
    ∧ (build_analysis_prompt sh).contextSize = sh.contextSize
    ∧ (build_analysis_prompt sh).alertCount = sh.alertCount
    ∧ (build_analysis_prompt sh).msgsEver = sh.msgsEver
    ∧ (build_analysis_prompt sh).alertsEver = sh.alertsEver := by
  unfold build_analysis_prompt
  split <;> simp

/- ---------- C2: bounded context buffer ---------- -/

theorem foldAdd_inv (cs : Nat) (hcs : 1 ≤ cs) :
    ∀ (ms : List (String × String)) (sh : ShepState),
      sh.contextSize = cs → sh.buf.length ≤ cs →
      (foldAdd sh ms).buf
          = (sh.buf ++ ms.map (fun ct => fmtEntry ct.1 ct.2)).drop
              (sh.buf.length + ms.length - cs)
        ∧ (foldAdd sh ms).msgCount = sh.msgCount + ms.length
        ∧ (foldAdd sh ms).contextSize = cs
        ∧ (foldAdd sh ms).buf.length ≤ cs := by
  intro ms
  induction ms with
  | nil =>
    intro sh hc hb
    refine ⟨?_, rfl, hc, hb⟩
    simp only [foldAdd, List.foldl_nil, List.map_nil, List.append_nil, List.length_nil]
    rw [show sh.buf.length + 0 - cs = 0 by omega, List.drop_zero]
  | cons ct rest ih =>
    intro sh hc hb
    have hstep : (add_to_context sh ct.1 ct.2).buf
        = (sh.buf ++ [fmtEntry ct.1 ct.2]).drop (sh.buf.length + 1 - cs) := by
      show (if sh.contextSize < (sh.buf ++ [fmtEntry ct.1 ct.2]).length then
              pyTakeLast (sh.buf ++ [fmtEntry ct.1 ct.2]) sh.contextSize
            else sh.buf ++ [fmtEntry ct.1 ct.2]) = _
      rw [hc]
      unfold pyTakeLast
      by_cases hlt : cs < (sh.buf ++ [fmtEntry ct.1 ct.2]).length
      · rw [if_pos hlt, if_neg (by omega)]
        simp only [List.length_append, List.length_cons, List.length_nil]
      · rw [if_neg hlt]
        simp only [List.length_append, List.length_cons, List.length_nil] at hlt
        rw [show sh.buf.length + 1 - cs = 0 by omega, List.drop_zero]
    have hstepLen : (add_to_context sh ct.1 ct.2).buf.length ≤ cs := by
      rw [hstep]
      simp only [List.length_drop, List.length_append, List.length_cons, List.length_nil]
      omega
    have hstepCs : (add_to_context sh ct.1 ct.2).contextSize = cs := hc
    have hfold : foldAdd sh (ct :: rest) = foldAdd (add_to_context sh ct.1 ct.2) rest := rfl
    obtain ⟨ihb, ihm, ihc, ihl⟩ := ih (add_to_context sh ct.1 ct.2) hstepCs hstepLen
    refine ⟨?_, ?_, by rw [hfold]; exact ihc, by rw [hfold]; exact ihl⟩
    · rw [hfold, ihb, hstep]
      have hdle : sh.buf.length + 1 - cs ≤ (sh.buf ++ [fmtEntry ct.1 ct.2]).length := by
        simp only [List.length_append, List.length_cons, List.length_nil]; omega
      rw [← List.drop_append_of_le_length hdle, List.drop_drop]
      have harr : (sh.buf ++ [fmtEntry ct.1 ct.2]) ++ rest.map (fun ct => fmtEntry ct.1 ct.2)
          = sh.buf ++ (ct :: rest).map (fun ct => fmtEntry ct.1 ct.2) := by
        simp [List.append_assoc]
      rw [harr]
      congr 1
      simp only [List.length_drop, List.length_append, List.length_cons,
        List.length_nil, List.length_map]
      omega
    · rw [hfold, ihm]
      show sh.msgCount + 1 + rest.length = sh.msgCount + (ct :: rest).length
      simp only [List.length_cons]
      omega

/-- C2 counterexample: with `context_size = 0` the Python slice `lst[-0:]`
keeps the whole list, so after one `add_to_context` call from an empty
buffer the length is 1 while `min(context_size, total_appended)` is 0 — the
claimed length identity fails at that configuration. -/
theorem c2_cex_zero_context :
    ¬ ((add_to_context (initShep 0) ("a") ("user")).buf.length
        = min (initShep 0).contextSize (add_to_context (initShep 0) ("a") ("user")).msgCount) := by
  decide

/-- C2 (amended with `1 ≤ context_size`): for every sequence of appended
messages starting from the empty buffer, the buffer holds exactly the last
`min(context_size, total)` entries, formatted `type: content`, in insertion
order with the oldest dropped, its length is `min(context_size, total)`,
and `message_count` equals the number of calls (one increment per call,
never decremented). -/
theorem c2_bounded_buffer (cs : Nat) (hcs : 1 ≤ cs) (ms : List (String × String)) :
    (foldAdd (initShep cs) ms).buf
        = (ms.map (fun ct => fmtEntry ct.1 ct.2)).drop (ms.length - cs)
      ∧ (foldAdd (initShep cs) ms).buf.length = min cs ms.length
      ∧ (foldAdd (initShep cs) ms).msgCount = ms.length
      ∧ ∀ (sh : ShepState) (c t : String),
          (add_to_context sh c t).msgCount = sh.msgCount + 1 := by
  obtain ⟨hb, hm, _, _⟩ := foldAdd_inv cs hcs ms (initShep cs) rfl (by simp [initShep])
  have hb2 : (foldAdd (initShep cs) ms).buf
      = (ms.map (fun ct => fmtEntry ct.1 ct.2)).drop (ms.length - cs) := by
    rw [hb]; simp [initShep]
  refine ⟨hb2, ?_, by rw [hm]; simp [initShep], fun sh c t => rfl⟩
  rw [hb2]
  simp only [List.length_drop, List.length_map]
  omega

/-- C2 witness: three messages with `context_size = 2` keep the last two
entries and count three messages. -/
theorem c2_bounded_buffer_witness :
    (foldAdd (initShep 2) [(("a"), ("user")), (("b"), ("assistant")), (("c"), ("user"))]).buf
        = [("assistant: b"), ("user: c")]
      ∧ (foldAdd (initShep 2) [(("a"), ("user")), (("b"), ("assistant")), (("c"), ("user"))]).msgCount = 3 := by
  have h := c2_bounded_buffer 2 (by decide)
    [(("a"), ("user")), (("b"), ("assistant")), (("c"), ("user"))]
  exact ⟨by rw [h.1]; rfl, h.2.2.1⟩

/- ---------- C3: log switch re-anchoring ---------- -/

/-- C3 counterexample: switching to an EXISTING BUT EMPTY log file sets
`last_processed_line` to 0, so the claim that the offset is never set to
zero fails (it equals the line count, which is zero here). -/
theorem c3_cex_empty_file :
    (switch_to_log { logPath := none, lastProcessedLine := 5, shep := initShep 3 }
        ("new.jsonl") (some [])).lastProcessedLine = 0
      ∧ 0 < ({ logPath := none, lastProcessedLine := 5, shep := initShep 3 } : MonState).lastProcessedLine := by
  exact ⟨rfl, by decide⟩

/-- C3 (amended): after a switch to an existing file, `last_processed_line`
equals the total line count of the new file at switch time (zero exactly
when the new file is empty); every line present before the switch is
skipped by the next read, so only lines appended afterwards are extracted;
a missing new file leaves the offset unchanged; and the shepherd state —
context buffer, ledger and counters — is untouched by the switch. -/
theorem c3_switch_reanchors (st : MonState) (p : String) (lines : List String) :
    (switch_to_log st p (some lines)).lastProcessedLine = lines.length
      ∧ (∀ extra : List String,
          readNewLines (lines ++ extra) (switch_to_log st p (some lines)).lastProcessedLine = extra)
      ∧ (switch_to_log st p none).lastProcessedLine = st.lastProcessedLine
      ∧ (switch_to_log st p (some lines)).shep = st.shep := by
  refine ⟨rfl, ?_, rfl, rfl⟩
  intro extra
  show (lines ++ extra).drop lines.length = extra
  exact List.drop_left lines extra

/- ---------- C8: heartbeat condition and reset ---------- -/

/-- C8: the heartbeat fires iff the interval is positive, at least one
message has been counted, and the count is divisible by the interval; the
status emission resets the alert tally to zero and leaves the cumulative
message count (and the context buffer) unchanged. -/
theorem c8_heartbeat (i : Int) (sh : ShepState) (nm : String) :
    (should_show_heartbeat i sh = true
        ↔ 0 < i ∧ 0 < sh.msgCount ∧ (sh.msgCount : Int) % i = 0)
      ∧ (get_heartbeat_status sh nm i).1.alertCount = 0
      ∧ (get_heartbeat_status sh nm i).1.msgCount = sh.msgCount
      ∧ (get_heartbeat_status sh nm i).1.buf = sh.buf
      ∧ (heartbeatStep i nm sh).alertCount
          = (if should_show_heartbeat i sh then 0 else sh.alertCount)
      ∧ (heartbeatStep i nm sh).msgCount = sh.msgCount := by
  refine ⟨?_, rfl, rfl, rfl,
    by unfold heartbeatStep; by_cases hs : should_show_heartbeat i sh <;> simp [hs, heartbeat_shape],
    by unfold heartbeatStep; by_cases hs : should_show_heartbeat i sh <;> simp [hs, heartbeat_shape]⟩
  unfold should_show_heartbeat
  by_cases hi : i ≤ 0
  · simp only [hi, if_pos]
    constructor
    · intro h; cases h
    · rintro ⟨h1, -, -⟩; omega
  · simp only [hi, if_neg, if_false, Bool.and_eq_true, decide_eq_true_eq]
    constructor
    · rintro ⟨h1, h2⟩; exact ⟨by omega, h1, h2⟩
    · rintro ⟨-, h1, h2⟩; exact ⟨h1, h2⟩

/- ---------- C6: response validation and single repair ---------- -/

/-- C6: the source validator agrees with the specification wording — a
response is well-formed iff it has no alert marker, or its stripped first
line begins with the alert header and some subsequent line begins with the
reason header (the source scans all lines for the reason header, but the
first line cannot start with both headers); and a successful completion
makes exactly one reformat attempt exactly when the response is
malformed-but-alerting, after which the (possibly still malformed) text is
processed and returned rather than dropped. -/
theorem c6_validation_and_repair :
    (∀ r : String, is_properly_formatted r = specWellFormed r)
      ∧ (∀ (sh : ShepState) (f : String → String) (out : String),
          (process_async_analysis sh f 0 out).2.2
              = (if pyContains out alertMarker && !is_properly_formatted out then 1 else 0)
            ∧ (process_async_analysis sh f 0 out).2.1
              = (if pyContains out alertMarker && !is_properly_formatted out then f out else out)
            ∧ (process_async_analysis sh f 0 out).1
              = (if pyContains (process_async_analysis sh f 0 out).2.1 alertMarker then
                   recordAlert sh (process_async_analysis sh f 0 out).2.1
                 else sh)) := by
  constructor
  · intro r
    unfold is_properly_formatted specWellFormed
    by_cases hc : pyContains r alertMarker
    · simp only [hc, Bool.not_true, Bool.false_eq_true, if_false]
      cases hl : pySplitLines (pyStrip r) with
      | nil => simp
      | cons h t =>
        by_cases hs : pyStartsWith h alertMarker
        · simp only [List.headD_cons, hs, Bool.not_true, Bool.false_eq_true, if_false,
            List.any_cons, startsWith_disjoint h hs, Bool.false_or, List.drop_one,
            List.tail_cons, Bool.true_and]
        · simp only [List.headD_cons, hs, Bool.not_false, if_true, Bool.false_and]
    · simp only [hc, Bool.not_false, if_true]
  · intro sh f out
    exact ⟨rfl, rfl, rfl⟩

/- ---------- C7: content extraction ---------- -/

theorem jget_some_truthy (v : JVal) (k : String) (x : JVal)
    (h : jget v k = some x) : pyTruthy v = true := by
  cases v with
  | jobj fs =>
    cases fs with
    | nil => simp [jget, List.lookup] at h
    | cons f rest => simp [pyTruthy]
  | jnull => simp [jget] at h
  | jbool b => simp [jget] at h
  | jnum n => simp [jget] at h
  | jstr s => simp [jget] at h
  | jarr xs => simp [jget] at h

theorem collect_eq_filterMap :
    ∀ (blocks : List JVal) (acc : List String),
      blocks.foldl
          (fun acc b => match blockText b with
            | some t => acc ++ [t]
            | none => acc)
          acc
        = acc ++ blocks.filterMap blockText := by
  intro blocks
  induction blocks with
  | nil => intro acc; simp
  | cons b rest ih =>
    intro acc
    simp only [List.foldl_cons, List.filterMap_cons]
    cases hb : blockText b with
    | none => simp only [hb]; exact ih acc
    | some t =>
      simp only [hb]
      rw [ih (acc ++ [t])]
      simp

/-- C7 counterexample: a record with NO nested message but a non-empty
top-level `content` string is of no recognized shape, yet extraction
returns that top-level payload instead of the empty string the claim
requires for unrecognized shapes. -/
theorem c7_cex_top_level_content :
    jget recTopOnly ("message") = none
      ∧ extract_content recTopOnly = ("hello")
      ∧ (("hello") : String) ≠ ("") := by
  exact ⟨rfl, rfl, by decide⟩

/-- C7 (amended): when the nested message content is a plain string the
payload itself is returned; when it is a list of typed blocks the result is
the `text` of exactly the `text`-typed blocks, in list order, joined with
single-space separators; and every unrecognized shape (absent or falsy
nested message, or nested content of any other type) falls back to the
TOP-LEVEL `content` field — that string when present, else the empty
string. -/
theorem c7_extract_content (m : JVal) :
    (∀ (nested : JVal) (s : String),
        jget m ("message") = some nested → jget nested ("content") = some (JVal.jstr s) →
        extract_content m = s)
      ∧ (∀ (nested : JVal) (blocks : List JVal),
          jget m ("message") = some nested → jget nested ("content") = some (JVal.jarr blocks) →
          extract_content m = joinSpace (blocks.filterMap blockText))
      ∧ ((match jget m ("message") with
          | none => True
          | some nested => pyTruthy nested = false ∨ unrecognizedContent nested = true) →
          extract_content m = topContent m) := by
  refine ⟨?_, ?_, ?_⟩
  · intro nested s hm hcont
    unfold extract_content
    rw [hm]
    simp only [Option.getD_some, jget_some_truthy nested ("content") _ hcont, if_true, hcont]
  · intro nested blocks hm hcont
    unfold extract_content
    rw [hm]
    simp only [Option.getD_some, jget_some_truthy nested ("content") _ hcont, if_true, hcont]
    unfold collectTextParts
    rw [collect_eq_filterMap blocks []]
    simp
  · intro hshape
    unfold extract_content
    cases hm : jget m ("message") with
    | none => simp only [Option.getD_none, pyTruthy, List.isEmpty_nil, Bool.not_true,
        Bool.false_eq_true, if_false]
    | some nested =>
      rw [hm] at hshape
      simp only [Option.getD_some]
      rcases hshape with ht | hu
      · simp only [ht, Bool.false_eq_true, if_false]
      · by_cases ht : pyTruthy nested
        · simp only [ht, if_true]
          unfold unrecognizedContent at hu
          cases hcont : jget nested ("content") with
          | none => simp only [hcont]
          | some v =>
            rw [hcont] at hu
            cases v with
            | jstr s => simp at hu
            | jarr xs => simp at hu
            | jnull => simp only []
            | jbool b => simp only []
            | jnum n => simp only []
            | jobj fs => simp only []
        · simp only [Bool.not_eq_true] at ht
          simp only [ht, Bool.false_eq_true, if_false]

/-- C7 witness: a record whose nested message content is the string `hi`
extracts to `hi`. -/
theorem c7_extract_content_witness : extract_content recNested = ("hi") :=
  (c7_extract_content recNested).1 (JVal.jobj [(("content"), JVal.jstr ("hi"))]) ("hi") rfl rfl

/- ---------- scheduler line-loop lemmas ---------- -/

theorem processLine_cases (st : ProjState) (l : Option JVal) (isLast : Bool) :
    ((isLast && !st.pending && (admittedOne l).isSome) = true
        ∧ processLine st l isLast
            = ({ st with
                  shep := build_analysis_prompt (lineShepEffect st.interval st.name st.shep l)
                  pending := true }, true))
    ∨ ((isLast && !st.pending && (admittedOne l).isSome) = false
        ∧ processLine st l isLast
            = ({ st with shep := lineShepEffect st.interval st.name st.shep l }, false)) := by
  cases l with
  | none =>
    right
    refine ⟨by simp [admittedOne], rfl⟩
  | some m =>
    by_cases hcm : is_complete_message m = true
    · by_cases hg : (!(extract_content m).data.isEmpty && !pyIsSpace (extract_content m)) = true
      · have hadm : admittedOne (some m)
            = some (extract_content m, pyGetStr m ("type") ("unknown")) := by
          simp [admittedOne, hcm, hg]
        have heff : lineShepEffect st.interval st.name st.shep (some m)
            = heartbeatStep st.interval st.name
                (add_to_context st.shep (extract_content m) (pyGetStr m ("type") ("unknown"))) := by
          unfold lineShepEffect
          rw [hadm]
        by_cases hb : (isLast && !st.pending) = true
        · left
          constructor
          · simp [hadm, hb]
          · simp [processLine, hcm, hg, hb, heff]
        · right
          constructor
          · simpa [hadm] using hb
          · simp [processLine, hcm, hg, hb, heff]
      · have hadm : admittedOne (some m) = none := by
          simp [admittedOne, hcm, hg]
        have heff : lineShepEffect st.interval st.name st.shep (some m) = st.shep := by
          unfold lineShepEffect
          rw [hadm]
        right
        constructor
        · simp [hadm]
        · simp [processLine, hcm, hg, heff]
    · have hadm : admittedOne (some m) = none := by
        simp [admittedOne, hcm]
      have heff : lineShepEffect st.interval st.name st.shep (some m) = st.shep := by
        unfold lineShepEffect
        rw [hadm]
      right
      constructor
      · simp [hadm]
      · simp [processLine, hcm, heff]

theorem processLine_not_last (st : ProjState) (l : Option JVal) :
    processLine st l false
      = ({ st with shep := lineShepEffect st.interval st.name st.shep l }, false) := by
  rcases processLine_cases st l false with ⟨h1, _⟩ | ⟨_, h2⟩
  · simp at h1
  · exact h2

theorem processLine_pending_noop (st : ProjState) (l : Option JVal) (b : Bool)
    (h : st.pending = true) :
    processLine st l b
      = ({ st with shep := lineShepEffect st.interval st.name st.shep l }, false) := by
  rcases processLine_cases st l b with ⟨h1, _⟩ | ⟨_, h2⟩
  · rw [h] at h1; simp at h1
  · exact h2

theorem processLine_dispatched (st : ProjState) (l : Option JVal) (b : Bool) :
    (processLine st l b).2 = (b && !st.pending && (admittedOne l).isSome) := by
  rcases processLine_cases st l b with ⟨h1, h2⟩ | ⟨h1, h2⟩
  · rw [h2, h1]
  · rw [h2, h1]

theorem ctxView_add (sh sh2 : ShepState) (c t : String)
    (h : ctxView sh = ctxView sh2) :
    ctxView (add_to_context sh c t) = ctxView (add_to_context sh2 c t) := by
  simp only [ctxView, Prod.mk.injEq] at h
  obtain ⟨h1, h2, h3⟩ := h
  simp [ctxView, add_to_context, h1, h2, h3]

theorem ctxView_heartbeat (i : Int) (nm : String) (sh : ShepState) :
    ctxView (heartbeatStep i nm sh) = ctxView sh := by
  unfold heartbeatStep
  split <;> rfl

theorem ctxView_purge (sh : ShepState) :
    ctxView (build_analysis_prompt sh) = ctxView sh := by
  unfold build_analysis_prompt
  split <;> rfl

theorem ctxView_fold (i : Int) (nm : String) :
    ∀ (batch : List (Option JVal)) (sh sh2 : ShepState),
      ctxView sh = ctxView sh2 →
      ctxView (batch.foldl (lineShepEffect i nm) sh) = ctxView (foldAdd sh2 (admitted batch)) := by
  intro batch
  induction batch with
  | nil => intro sh sh2 h; exact h
  | cons l ls ih =>
    intro sh sh2 h
    show ctxView (ls.foldl (lineShepEffect i nm) (lineShepEffect i nm sh l)) = _
    cases hadm : admittedOne l with
    | none =>
      have heff : lineShepEffect i nm sh l = sh := by
        unfold lineShepEffect; rw [hadm]
      have hlst : admitted (l :: ls) = admitted ls := by
        simp [admitted, List.filterMap_cons, hadm]
      rw [heff, hlst]
      exact ih sh sh2 h
    | some ct =>
      have heff : lineShepEffect i nm sh l = heartbeatStep i nm (add_to_context sh ct.1 ct.2) := by
        unfold lineShepEffect; rw [hadm]
      have hlst : admitted (l :: ls) = ct :: admitted ls := by
        simp [admitted, List.filterMap_cons, hadm]
      rw [heff, hlst]
      exact ih _ (add_to_context sh2 ct.1 ct.2)
        ((ctxView_heartbeat i nm _).trans (ctxView_add sh sh2 ct.1 ct.2 h))

theorem foldAdd_msgCount : ∀ (ms : List (String × String)) (sh : ShepState),
    (foldAdd sh ms).msgCount = sh.msgCount + ms.length := by
  intro ms
  induction ms with
  | nil => intro sh; rfl
  | cons ct rest ih =>
    intro sh
    show (foldAdd (add_to_context sh ct.1 ct.2) rest).msgCount = _
    rw [ih]
    show sh.msgCount + 1 + rest.length = sh.msgCount + (ct :: rest).length
    simp only [List.length_cons]
    omega

theorem processLines_pending_noop : ∀ (batch : List (Option JVal)) (st : ProjState),
    st.pending = true →
    processLines st batch
      = ({ st with shep := batch.foldl (lineShepEffect st.interval st.name) st.shep }, false) := by
  intro batch
  induction batch with
  | nil => intro st _; rfl
  | cons l ls ih =>
    intro st h
    cases ls with
    | nil =>
      show processLine st l true = _
      rw [processLine_pending_noop st l true h]
      rfl
    | cons l2 ls2 =>
      show processLines (processLine st l false).1 (l2 :: ls2) = _
      rw [processLine_not_last st l]
      exact ih _ h

theorem processLines_dispatched : ∀ (batch : List (Option JVal)) (st : ProjState),
    (processLines st batch).2
      = (!st.pending && ((batch.getLast?).elim false (fun l => (admittedOne l).isSome))) := by
  intro batch
  induction batch with
  | nil => intro st; simp [processLines]
  | cons l ls ih =>
    intro st
    cases ls with
    | nil =>
      show (processLine st l true).2 = _
      rw [processLine_dispatched]
      simp
    | cons l2 ls2 =>
      show (processLines (processLine st l false).1 (l2 :: ls2)).2 = _
      rw [processLine_not_last st l, ih]
      simp [List.getLast?_cons_cons]

theorem ctxView_processLines : ∀ (batch : List (Option JVal)) (st : ProjState) (sh2 : ShepState),
    ctxView st.shep = ctxView sh2 →
    ctxView ((processLines st batch).1.shep) = ctxView (foldAdd sh2 (admitted batch)) := by
  intro batch
  induction batch with
  | nil => intro st sh2 h; exact h
  | cons l ls ih =>
    intro st sh2 h
    cases ls with
    | nil =>
      have hone : ctxView (lineShepEffect st.interval st.name st.shep l)
          = ctxView (foldAdd sh2 (admitted [l])) :=
        ctxView_fold st.interval st.name [l] st.shep sh2 h
      show ctxView ((processLine st l true).1.shep) = _
      rcases processLine_cases st l true with ⟨_, h2⟩ | ⟨_, h2⟩
      · rw [h2]
        exact (ctxView_purge _).trans hone
      · rw [h2]
        exact hone
    | cons l2 ls2 =>
      show ctxView ((processLines (processLine st l false).1 (l2 :: ls2)).1.shep) = _
      rw [processLine_not_last st l]
      cases hadm : admittedOne l with
      | none =>
        have heff : lineShepEffect st.interval st.name st.shep l = st.shep := by
          unfold lineShepEffect; rw [hadm]
        have hlst : admitted (l :: l2 :: ls2) = admitted (l2 :: ls2) := by
          simp [admitted, List.filterMap_cons, hadm]
        rw [heff, hlst]
        exact ih _ sh2 h
      | some ct =>
        have heff : lineShepEffect st.interval st.name st.shep l
            = heartbeatStep st.interval st.name (add_to_context st.shep ct.1 ct.2) := by
          unfold lineShepEffect; rw [hadm]
        have hlst : admitted (l :: l2 :: ls2) = ct :: admitted (l2 :: ls2) := by
          simp [admitted, List.filterMap_cons, hadm]
        rw [heff, hlst]
        exact ih _ (add_to_context sh2 ct.1 ct.2)
          ((ctxView_heartbeat _ _ _).trans (ctxView_add st.shep sh2 ct.1 ct.2 h))

/- ---------- C1: single-flight dispatch ---------- -/

/-- C1: when an analysis is already pending for a project, processing any
batch of new lines starts no new analysis — the state evolves exactly by
the pure append/heartbeat pipeline with the pending flag (and task) left in
place and the dispatch flag false — and the arriving admitted messages are
still appended to the context buffer and counted. -/
theorem c1_single_flight (st : ProjState) (batch : List (Option JVal))
    (h : st.pending = true) :
    processLines st batch
        = ({ st with shep := batch.foldl (lineShepEffect st.interval st.name) st.shep }, false)
      ∧ (batch.foldl (lineShepEffect st.interval st.name) st.shep).msgCount
          = st.shep.msgCount + (admitted batch).length
      ∧ (batch.foldl (lineShepEffect st.interval st.name) st.shep).buf
          = (foldAdd st.shep (admitted batch)).buf := by
  have hv := ctxView_fold st.interval st.name batch st.shep st.shep rfl
  refine ⟨processLines_pending_noop batch st h, ?_, congrArg Prod.fst hv⟩
  have hm := congrArg (fun p => p.2.1) hv
  simp only [ctxView] at hm
  rw [hm, foldAdd_msgCount]

/-- C1 witness: with a pending analysis, a one-line batch is appended but
not dispatched. -/
theorem c1_single_flight_witness :
    (processLines projC1 [some recUser1]).2 = false := by
  have h := c1_single_flight projC1 [some recUser1] rfl
  rw [h.1]

/- ---------- C10: dispatch only on a complete final line ---------- -/

/-- C10: a batch of newly read lines dispatches an analysis iff no analysis
is pending AND the final raw line of the batch parses as a complete message
with non-blank content; regardless of the gate, every admitted message of
the batch is appended to the context buffer and counted (the count grows by
exactly the number of admitted messages). -/
theorem c10_dispatch_gate (st : ProjState) (batch : List (Option JVal)) :
    (processLines st batch).2
        = (!st.pending && ((batch.getLast?).elim false (fun l => (admittedOne l).isSome)))
      ∧ (processLines st batch).1.shep.msgCount
          = st.shep.msgCount + (admitted batch).length
      ∧ (processLines st batch).1.shep.buf = (foldAdd st.shep (admitted batch)).buf := by
  have hv := ctxView_processLines batch st st.shep rfl
  refine ⟨processLines_dispatched batch st, ?_, congrArg Prod.fst hv⟩
  have hm := congrArg (fun p => p.2.1) hv
  simp only [ctxView] at hm
  rw [hm, foldAdd_msgCount]

/- ---------- C4: ledger purge bound ---------- -/

/-- C4 (amended): immediately after an analysis request is built (the only
point where the source purges), every retained ledger record satisfies
`message_num ≥ message_count − context_window + 1`; between builds —
for instance at a tick whose batch ends in a malformed line while messages
were appended — stale records can transiently violate the bound (see the
counterexample). -/
theorem c4_ledger_purged_on_build (sh : ShepState) (r : Nat × String)
    (h : r ∈ (build_analysis_prompt sh).ledger) :
    (sh.msgCount : Int) - (contextWindow sh : Int) + 1 ≤ (r.1 : Int) := by
  unfold build_analysis_prompt at h
  by_cases he : sh.ledger.isEmpty
  · rw [if_pos he] at h
    rw [List.isEmpty_iff] at he
    rw [he] at h
    simp at h
  · rw [if_neg he] at h
    replace h : r ∈ sh.ledger.filter (fun v => decide (contextStart sh ≤ v.1)) := h
    rw [List.mem_filter] at h
    have hp := of_decide_eq_true h.2
    unfold contextStart at hp
    omega

/-- C4 witness: purging a ledger holding a stale record 1 and a fresh
record 5 at `message_count = 5`, window 2, keeps record 5, which satisfies
the bound. -/
theorem c4_ledger_purged_on_build_witness :
    (shC4.msgCount : Int) - (contextWindow shC4 : Int) + 1
      ≤ (((5, ("r2")) : Nat × String).1 : Int) :=
  c4_ledger_purged_on_build shC4 (5, ("r2")) (by decide)

/-- C4 counterexample: the claimed bound does NOT hold at every tick.  A
reachable three-tick run (dispatch; completion recording an alert at
message 1; a batch appending message 2 whose final line is malformed, so no
request is built) ends with ledger record 1 while
`message_count − context_window + 1 = 2`. -/
theorem c4_cex_stale_record_between_builds :
    ∃ r ∈ traceC4.shep.ledger,
      (r.1 : Int) < (traceC4.shep.msgCount : Int) - (contextWindow traceC4.shep : Int) + 1 := by
  decide

/- ---------- C5: completion handling and the unreachable alert display ---------- -/

/-- C5 (code bug): a successful result carrying the alert marker does
increment `alert_count` by one and append the ledger record
`(message_count, extracted rule name)`, and the result is returned
unchanged — but the scheduler prints the user-visible alert block only when
the result contains the EMOJI-prefixed marker, which the response contract
of the very same file forbids, so a contract-conforming alert is never
displayed (a non-verbose run shows nothing). -/
theorem c5_alert_block_unreachable :
    pyContains respConforming alertMarker = true
      ∧ is_properly_formatted respConforming = true
      ∧ (process_async_analysis shC5 id 0 respConforming).1.alertCount = shC5.alertCount + 1
      ∧ (process_async_analysis shC5 id 0 respConforming).1.ledger
          = shC5.ledger ++ [(shC5.msgCount, ("test-coverage"))]
      ∧ (process_async_analysis shC5 id 0 respConforming).2.1 = respConforming
      ∧ pyContains respConforming emojiAlertMarker = false
      ∧ (handleCompletion id projC5 (some (0, respConforming))).2 = Emission.silent := by
  decide

/- ---------- C9: shutdown summary ---------- -/

theorem inv_add_to_context (sh : ShepState) (c t : String) (h : CounterInv sh) :
    CounterInv (add_to_context sh c t) := by
  obtain ⟨h1, h2⟩ := h
  constructor
  · show sh.msgCount + 1 = sh.msgsEver + 1
    omega
  · exact h2

theorem inv_heartbeatStep (i : Int) (nm : String) (sh : ShepState) (h : CounterInv sh) :
    CounterInv (heartbeatStep i nm sh) := by
  unfold heartbeatStep
  split
  · exact ⟨h.1, Nat.zero_le _⟩
  · exact h

theorem inv_purge (sh : ShepState) (h : CounterInv sh) :
    CounterInv (build_analysis_prompt sh) := by
  obtain ⟨-, h2, -, h4, h5, h6⟩ := purge_counters sh
  exact ⟨by rw [h2, h5]; exact h.1, by rw [h4, h6]; exact h.2⟩

theorem inv_recordAlert (sh : ShepState) (r : String) (h : CounterInv sh) :
    CounterInv (recordAlert sh r) := by
  constructor
  · exact h.1
  · show sh.alertCount + 1 ≤ sh.alertsEver + 1
    have := h.2
    omega

theorem inv_process_async (sh : ShepState) (f : String → String) (rc : Nat) (out : String)
    (h : CounterInv sh) : CounterInv (process_async_analysis sh f rc out).1 := by
  unfold process_async_analysis
  by_cases hrc : rc = 0
  · rw [if_pos hrc]
    dsimp only
    split <;> split
    · exact inv_recordAlert _ _ h
    · exact h
    · exact inv_recordAlert _ _ h
    · exact h
  · rw [if_neg hrc]
    exact h

theorem inv_lineShepEffect (i : Int) (nm : String) (sh : ShepState) (l : Option JVal)
    (h : CounterInv sh) : CounterInv (lineShepEffect i nm sh l) := by
  unfold lineShepEffect
  cases admittedOne l with
  | none => exact h
  | some ct => exact inv_heartbeatStep _ _ _ (inv_add_to_context _ _ _ h)

theorem inv_processLine (st : ProjState) (l : Option JVal) (b : Bool)
    (h : CounterInv st.shep) : CounterInv ((processLine st l b).1.shep) := by
  rcases processLine_cases st l b with ⟨-, h2⟩ | ⟨-, h2⟩
  · rw [h2]
    exact inv_purge _ (inv_lineShepEffect _ _ _ _ h)
  · rw [h2]
    exact inv_lineShepEffect _ _ _ _ h

theorem inv_processLines : ∀ (batch : List (Option JVal)) (st : ProjState),
    CounterInv st.shep → CounterInv ((processLines st batch).1.shep) := by
  intro batch
  induction batch with
  | nil => intro st h; exact h
  | cons l ls ih =>
    intro st h
    cases ls with
    | nil => exact inv_processLine st l true h
    | cons l2 ls2 =>
      show CounterInv ((processLines (processLine st l false).1 (l2 :: ls2)).1.shep)
      exact ih _ (inv_processLine st l false h)

theorem inv_handleCompletion (f : String → String) (st : ProjState)
    (comp : Option (Nat × String)) (h : CounterInv st.shep) :
    CounterInv ((handleCompletion f st comp).1.shep) := by
  unfold handleCompletion
  by_cases hp : st.pending
  · rw [if_pos hp]
    cases comp with
    | none => exact h
    | some rcOut => exact inv_process_async _ _ _ _ h
  · rw [if_neg hp]
    exact h

theorem inv_runTicks (f : String → String) :
    ∀ (ins : List TickInput) (st : ProjState),
      CounterInv st.shep → CounterInv (runTicks f st ins).shep := by
  intro ins
  induction ins with
  | nil => intro st h; exact h
  | cons i rest ih =>
    intro st h
    show CounterInv (runTicks f (tick f st i).1 rest).shep
    exact ih _ (inv_handleCompletion f _ i.completion (inv_processLines i.batch st h))

theorem inv_reachable (st : ProjState) (h : ReachableProj st) : CounterInv st.shep := by
  obtain ⟨cs, i, nm, v, f, ins, rfl⟩ := h
  exact inv_runTicks f ins (initProj cs i nm v) ⟨rfl, Nat.le_refl 0⟩

theorem sum_msg_eq : ∀ (sts : List ProjState),
    (∀ st ∈ sts, st.shep.msgCount = st.shep.msgsEver) →
    ∀ a : Nat,
      sts.foldl (fun acc m => acc + m.shep.msgCount) a
        = sts.foldl (fun acc m => acc + m.shep.msgsEver) a := by
  intro sts
  induction sts with
  | nil => intro _ a; rfl
  | cons p rest ih =>
    intro h a
    show rest.foldl _ (a + p.shep.msgCount) = rest.foldl _ (a + p.shep.msgsEver)
    rw [h p (List.mem_cons_self p rest)]
    exact ih (fun st hst => h st (List.mem_cons_of_mem p hst)) _

theorem sum_alert_le : ∀ (sts : List ProjState),
    (∀ st ∈ sts, st.shep.alertCount ≤ st.shep.alertsEver) →
    ∀ a b : Nat, a ≤ b →
      sts.foldl (fun acc m => acc + m.shep.alertCount) a
        ≤ sts.foldl (fun acc m => acc + m.shep.alertsEver) b := by
  intro sts
  induction sts with
  | nil => intro _ a b hab; exact hab
  | cons p rest ih =>
    intro h a b hab
    show rest.foldl _ (a + p.shep.alertCount) ≤ rest.foldl _ (b + p.shep.alertsEver)
    refine ih (fun st hst => h st (List.mem_cons_of_mem p hst)) _ _ ?_
    have := h p (List.mem_cons_self p rest)
    omega

/-- C9 (amended): the shutdown summary reports the true total of messages
processed over the entire run (each per-project `message_count` is never
reset, so it equals the ghost count of admissions ever made); its alert
figure is the sum of each per-project `alert_count`, i.e. alerts raised
since that project's last heartbeat — a LOWER BOUND on the total alerts
raised over the run, not that total (heartbeats reset the tally; see the
counterexample). -/
theorem c9_final_summary (sts : List ProjState) (h : ∀ st ∈ sts, ReachableProj st) :
    (finalSummary sts).1 = sts.foldl (fun acc m => acc + m.shep.msgsEver) 0
      ∧ (finalSummary sts).2 ≤ sts.foldl (fun acc m => acc + m.shep.alertsEver) 0 := by
  constructor
  · exact sum_msg_eq sts (fun st hst => (inv_reachable st (h st hst)).1) 0
  · exact sum_alert_le sts (fun st hst => (inv_reachable st (h st hst)).2) 0 0 (Nat.le_refl 0)

/-- C9 witness: the summary of a single freshly started project reports the
ghost message total (zero). -/
theorem c9_final_summary_witness :
    (finalSummary [initProj 2 5 ("") false]).1
      = [initProj 2 5 ("") false].foldl (fun acc m => acc + m.shep.msgsEver) 0 := by
  have h := c9_final_summary [initProj 2 5 ("") false] ?_
  · exact h.1
  · intro st hst
    rw [List.mem_singleton] at hst
    exact ⟨2, 5, (""), false, id, [], hst⟩

/-- C9 counterexample: after an alert completes between two heartbeats at
interval 1, the final summary reports 0 alerts while 1 alert was raised
over the run (the message total, 2, is correct). -/
theorem c9_cex_summary_misses_reset_alerts :
    (finalSummary [traceC9]).1 = 2
      ∧ (finalSummary [traceC9]).2 = 0
      ∧ traceC9.shep.alertsEver = 1
      ∧ (finalSummary [traceC9]).2 ≠ traceC9.shep.alertsEver := by
  decide

end Shepherd
